import Mathlib

set_option maxHeartbeats 1000000

/-!
Shallow embedding of the execution-orchestrator core of the BLamy/ai-chatbot
repository: the language classifier (lib/utils/code-markers), the script
sandbox backend (lib/webcontainer/provider.tsx) and the run lifecycle driven
by the code artifact's Run action (artifacts/code/client.tsx).

JavaScript strings are modelled as Lean String / List Char; process-level
effects (spawn, exit codes, captured stdout chunks, thrown exceptions,
file readability) are modelled as explicit environment records, and the
sequence of tracker updates a run performs is modelled as a list of records.
-/

/-! ### Basic string utilities mirroring the JavaScript primitives used -/

/-- The characters matched by the JavaScript regex class `\s` (ASCII part);
the source only ever meets ASCII whitespace here. -/
def isJsSpace (c : Char) : Bool :=
  c = ' ' || c = '\t' || c = '\n' || c = '\r' || c = '\x0b' || c = '\x0c'

/-- The characters matched by the JavaScript regex class `\w`. -/
def isWordChar (c : Char) : Bool :=
  c.isAlphanum || c = '_'

/-- The backtick character, written via its code point. -/
def backtick : Char := Char.ofNat 96

/-- Prefix test on character lists: `leadsWith p s` holds when `p` is an
initial segment of `s`. -/
def leadsWith : List Char → List Char → Bool
  | [], _ => true
  | _ :: _, [] => false
  | p :: ps, c :: cs => (p == c) && leadsWith ps cs

/-- Substring occurrence test, mirroring JavaScript `String.includes`. -/
def occursIn (pat : List Char) : List Char → Bool
  | [] => pat.isEmpty
  | c :: cs => leadsWith pat (c :: cs) || occursIn pat cs

/-- `s.includes(pat)` for Lean strings. -/
def strIncludes (s pat : String) : Bool :=
  occursIn pat.data s.data

/-- `startsWith` for Lean strings, mirroring JavaScript `String.startsWith`. -/
def strLeadsWith (s pat : String) : Bool :=
  leadsWith pat.data s.data

/-- Split a character list at newline characters, mirroring the behaviour of
JavaScript `str.split('\n')` (always at least one piece; empty pieces kept). -/
def splitNl : List Char → List (List Char)
  | [] => [[]]
  | c :: cs =>
      if c = '\n' then [] :: splitNl cs
      else
        match splitNl cs with
        | [] => [[c]]
        | l :: ls => (c :: l) :: ls

/-- Join pieces with newline characters, mirroring `arr.join('\n')`. -/
def joinNl : List (List Char) → List Char
  | [] => []
  | [l] => l
  | l :: l2 :: ls => l ++ '\n' :: joinNl (l2 :: ls)

/-- Trim leading and trailing JavaScript whitespace, mirroring `str.trim()`. -/
def trimChars (cs : List Char) : List Char :=
  ((cs.dropWhile isJsSpace).reverse.dropWhile isJsSpace).reverse

/-- JavaScript `a || b` specialised to strings (empty string is falsy). -/
def jsOr (s d : String) : String :=
  if s = "" then d else s

/-- Truthiness of an optional string, as JavaScript sees `error` in
`error ? ... : ...` (absent and empty string are both falsy). -/
def jsTruthy : Option String → Bool
  | none => false
  | some e => e ≠ ""

/-- Decimal rendering of a natural number, mirroring JavaScript template
interpolation of the `Date.now()` value. -/
def decStr (n : Nat) : String :=
  ⟨if n = 0 then ['0'] else ((Nat.digits 10 n).map Nat.digitChar).reverse⟩

/-! ### Language classifier (src/unnamed/part_000, `lib/utils/code-markers`) -/

/-- The `CodeLanguage` union type of `components/code-editor`. -/
inductive CodeLanguage
  | python
  | javascript
  | typescript
deriving DecidableEq

/-- Result record of `parseCodeBlockMarkers`. -/
structure CodeBlockInfo where
  cleanedCode : String
  language : CodeLanguage
deriving DecidableEq

/-- The match of the anchored regex `/^\s*```(\w*)\s*\n/` against the input:
`some tag` with the captured `\w*` group when the regex matches, `none`
otherwise.  The regex matches exactly when, after the leading whitespace run,
three backticks appear, followed by a maximal word-character run (the tag)
and then whitespace containing a newline. -/
def fenceMatch (cs : List Char) : Option (List Char) :=
  let cs1 := cs.dropWhile isJsSpace
  if leadsWith [backtick, backtick, backtick] cs1 then
    let rest := cs1.drop 3
    let tag := rest.takeWhile isWordChar
    let rest2 := rest.dropWhile isWordChar
    if (rest2.takeWhile isJsSpace).contains '\n' then some tag else none
  else none

/-- The recognized-tag branch of `parseCodeBlockMarkers` (the if/else-if chain
on `langTag`): `some` of the canonical language for a recognized tag,
`none` when the tag is unrecognized. -/
def canonicalTag (langTag : String) : Option CodeLanguage :=
  if langTag = "python" || langTag = "py" then some CodeLanguage.python
  else if langTag = "typescript" || langTag = "ts" then some CodeLanguage.typescript
  else if langTag = "javascript" || langTag = "js" then some CodeLanguage.javascript
  else none

/-- The python condition of `detectLanguageFromContent` (first if). -/
def pythonTrigger (content : String) : Bool :=
  strIncludes content "def " ||
  strIncludes content "import " ||
  strIncludes content "print(" ||
  strIncludes content "if __name__ == \"__main__\""

/-- The typescript condition of `detectLanguageFromContent` (second if). -/
def typescriptTrigger (content : String) : Bool :=
  strIncludes content ": string" ||
  strIncludes content ": number" ||
  strIncludes content ": boolean" ||
  strIncludes content "interface " ||
  strIncludes content "type " ||
  (strIncludes content "<" && strIncludes content ">" && strIncludes content "extends")

/-- `detectLanguageFromContent` of `lib/utils/code-markers`. -/
def detectLanguageFromContent (content : String) : CodeLanguage :=
  if pythonTrigger content then CodeLanguage.python
  else if typescriptTrigger content then CodeLanguage.typescript
  else CodeLanguage.javascript

/-- `parseCodeBlockMarkers` of `lib/utils/code-markers`: on a fence match the
tag is lowercased and trimmed (trim is the identity on a `\w*` capture), the
cleaned code is `code.split('\n').slice(1, -1).join('\n')`, and the language
is the canonical tag, falling back to content detection on the cleaned code
for an unrecognized tag; without a fence match the code is returned unchanged
and classified by content. -/
def parseCodeBlockMarkers (code : String) : CodeBlockInfo :=
  match fenceMatch code.data with
  | some tagChars =>
      let langTag : String := ⟨trimChars (tagChars.map Char.toLower)⟩
      let cleanedCode : String := ⟨joinNl (((splitNl code.data).drop 1).dropLast)⟩
      { cleanedCode := cleanedCode
        language :=
          match canonicalTag langTag with
          | some l => l
          | none => detectLanguageFromContent cleanedCode }
  | none =>
      { cleanedCode := code
        language := detectLanguageFromContent code }

/-! ### Script sandbox backend (lib/webcontainer/provider.tsx) -/

/-- Result record of `executeJsCode` / `executeTypeScript`:
`{ output, error? }`. -/
structure ExecResult where
  output : String
  error : Option String
deriving DecidableEq

/-- The unique temp-file name of the JavaScript path (`code-${timestamp}.js`,
with `timestamp = Date.now()` as observed by the run). -/
def jsTempName (timestamp : Nat) : String :=
  "code-" ++ decStr timestamp ++ ".js"

/-- The unique temp-file name of the TypeScript path (`code-${timestamp}.ts`). -/
def tsTempName (timestamp : Nat) : String :=
  "code-" ++ decStr timestamp ++ ".ts"

/-- `tsFilename.replace(/\.ts$/, '.js')`: replace a terminal `.ts` by `.js`,
leave other names unchanged. -/
def replaceTsExt (name : String) : String :=
  if leadsWith ['s', 't', '.'] name.data.reverse then
    ⟨(name.data.reverse.drop 3).reverse⟩ ++ ".js"
  else name

/-- Environment a JavaScript run observes: the `Date.now()` value used for
its temp-file name, whether an exception escaped the `try` body (with its
message), and otherwise the spawned node process's exit code and captured
stdout chunks in arrival order. -/
structure ScriptEnv where
  timestamp : Nat
  thrown : Option String
  exitCode : Nat
  chunks : List String
deriving DecidableEq

/-- The temp file written by `executeJsCode` (provider.tsx lines 259-264). -/
def jsRunFilename (env : ScriptEnv) : String :=
  jsTempName env.timestamp

/-- `executeJsCode` of provider.tsx: on an exception the catch returns empty
output with the error message; otherwise the joined stdout is returned with
`error: 'Execution failed'` on a nonzero exit, and with the synthesized
no-output text substituted for empty stdout on exit 0.  (`stdout || ''` of
line 293 is kept as written; it is the identity.) -/
def executeJsCode (env : ScriptEnv) : ExecResult :=
  match env.thrown with
  | some msg => { output := "", error := some msg }
  | none =>
      let stdout := String.join env.chunks
      if env.exitCode ≠ 0 then
        { output := jsOr stdout "", error := some "Execution failed" }
      else
        { output := jsOr stdout "Code executed successfully (no output)", error := none }

/-- Environment the TypeScript compilation step observes: whether an
exception escaped `compileTsWithTsc`'s own `try`, the `tsc` exit code, the
captured diagnostic chunks, and whether the expected compiled `.js` file can
be read afterwards. -/
structure TsCompileEnv where
  thrownInCompile : Option String
  tscExit : Nat
  diagChunks : List String
  jsFileReadable : Bool
deriving DecidableEq

/-- `compileTsWithTsc` of provider.tsx, as the JavaScript filename it
resolves to (`undefined` is `none`).  Note both the nonzero-exit branch
(lines 128-141) and the zero-exit branch (lines 143-151) return the compiled
filename exactly when the compiled file is readable; the captured diagnostics
are only logged, never returned. -/
def compileTsWithTsc (tsFilename : String) (env : TsCompileEnv) : Option String :=
  match env.thrownInCompile with
  | some _ => none
  | none =>
      let jsFilename := replaceTsExt tsFilename
      if env.tscExit ≠ 0 then
        (if env.jsFileReadable then some jsFilename else none)
      else
        (if env.jsFileReadable then some jsFilename else none)

/-- Environment a TypeScript run observes: the `Date.now()` value, the
compilation environment, whether an exception escaped the execution phase,
and the node process's exit code and captured stdout chunks. -/
structure TsEnv where
  timestamp : Nat
  compileEnv : TsCompileEnv
  runThrown : Option String
  exitCode : Nat
  chunks : List String
deriving DecidableEq

/-- `executeTypeScript` of provider.tsx: compile, fail with the fixed
generic message when no compiled file results, otherwise execute the
compiled file with the same exit-code/stdout handling as the JavaScript
path. -/
def executeTypeScript (env : TsEnv) : ExecResult :=
  match compileTsWithTsc (tsTempName env.timestamp) env.compileEnv with
  | none =>
      { output := ""
        error := some "TypeScript compilation failed - could not generate JavaScript file" }
  | some _ =>
      match env.runThrown with
      | some msg => { output := "", error := some msg }
      | none =>
          let stdout := String.join env.chunks
          if env.exitCode ≠ 0 then
            { output := jsOr stdout "", error := some "Execution failed" }
          else
            { output := jsOr stdout "Code executed successfully (no output)", error := none }

/-! ### WebContainer singleton boot (provider.tsx `getWebContainer`)

The module-level variable `webcontainerInstance` starts as `null`; in a
browser the first call synchronously stores the boot promise and every later
call returns the stored promise; during SSR a fresh dummy promise is handed
out without touching the stored state.  JavaScript's single-threaded
execution makes each call's check-and-set atomic, so concurrency is exactly
an interleaving (a list) of calls.  State is `(stored promise?, next fresh
promise id)`; a step returns the new state, the promise the caller receives
(`none` for the SSR dummy) and how many boots the call performed. -/

/-- One call to `getWebContainer`. -/
def wcStep (isBrowser : Bool) (st : Option Nat × Nat) : (Option Nat × Nat) × Option Nat × Nat :=
  if isBrowser then
    match st.1 with
    | some p => ((some p, st.2), some p, 0)
    | none => ((some st.2, st.2 + 1), some st.2, 1)
  else (st, none, 0)

/-- A sequence of calls to `getWebContainer` from a given state: the list of
promises handed out, in call order, and the total number of boots. -/
def wcRunFrom (st : Option Nat × Nat) : List Bool → List (Option Nat) × Nat
  | [] => ([], 0)
  | b :: calls =>
      let step := wcStep b st
      let rest := wcRunFrom step.1 calls
      (step.2.1 :: rest.1, step.2.2 + rest.2)

/-! ### Run action of the code artifact (artifacts/code/client.tsx)

Each `setMetadata` call in the Run action's `onClick` replaces the tracker
entry for the run id (the first one appends it); the run's effect on the
tracker is therefore the ordered list of `ConsoleOutput` records it writes,
the last of which is the record finally surfaced. -/

/-- One element of a `ConsoleOutput`'s `contents` (`type` is the literal
`'text'` or `'image'`). -/
structure ConsoleOutputContent where
  ctype : String
  value : String
deriving DecidableEq

/-- A tracker entry: `{ id, contents, status }` with `status` one of the
literals `'in_progress' | 'loading_packages' | 'completed' | 'failed'`. -/
structure ConsoleOutput where
  id : String
  contents : List ConsoleOutputContent
  status : String
deriving DecidableEq

/-- The stdout collector of the Python path (client.tsx lines 270-279): a
batched output line becomes an `image` event when it starts with the PNG
data-URI marker, else a `text` event. -/
def classifyBatch (s : String) : ConsoleOutputContent :=
  { ctype := if strLeadsWith s "data:image/png;base64" then "image" else "text"
    value := s }

/-- The terminal record the script branch writes (client.tsx lines 242-259):
`Error: ${error}` and `failed` on a truthy error, else the output (or the
client-side synthesized text) and `completed`. -/
def scriptFinalRecord (runId : String) (res : ExecResult) : ConsoleOutput :=
  { id := runId
    contents := [{ ctype := "text"
                   value := if jsTruthy res.error then "Error: " ++ res.error.getD ""
                            else jsOr res.output "Code executed successfully with no output" }]
    status := if jsTruthy res.error then "failed" else "completed" }

/-- The ordered tracker updates of a JavaScript/TypeScript run (client.tsx
lines 185-259): the appended `in_progress` record, two `loading_packages`
progress records, then the terminal record. -/
def onClickScriptTrace (runId : String) (lang : CodeLanguage) (res : ExecResult) :
    List ConsoleOutput :=
  [ { id := runId, contents := [], status := "in_progress" },
    { id := runId
      contents := [{ ctype := "text", value := "Running JavaScript in WebContainer..." }]
      status := "loading_packages" },
    { id := runId
      contents := [{ ctype := "text"
                     value := "Running " ++
                       (if lang = CodeLanguage.typescript then "TypeScript" else "JavaScript") ++
                       " code..." }]
      status := "loading_packages" },
    scriptFinalRecord runId res ]

/-- Environment a Python run observes: the package-install progress messages
(one `loading_packages` update each), the stdout batches captured before any
exception, and the exception message when installation or execution raised. -/
structure PyEnv where
  loadMessages : List String
  stdoutBatches : List String
  exnMessage : Option String
deriving DecidableEq

/-- The ordered tracker updates of a Python run (client.tsx lines 185-195 and
264-336): the appended `in_progress` record, one `loading_packages` record
per install message, then on success a `completed` record holding exactly the
classified captured batches, and on an exception a `failed` record holding
only the exception message (the catch at lines 324-335 writes
`[{ type: 'text', value: error.message }]`, dropping `outputContent`). -/
def onClickPythonTrace (runId : String) (env : PyEnv) : List ConsoleOutput :=
  { id := runId, contents := [], status := "in_progress" } ::
  (env.loadMessages.map fun m =>
    { id := runId, contents := [{ ctype := "text", value := m }], status := "loading_packages" }) ++
  [ match env.exnMessage with
    | some msg => { id := runId, contents := [{ ctype := "text", value := msg }], status := "failed" }
    | none => { id := runId, contents := env.stdoutBatches.map classifyBatch, status := "completed" } ]

/-- The full Run action dispatch (client.tsx line 199): javascript and
typescript go to the script branch, everything else (python) to the Pyodide
branch. -/
def onClickTrace (runId : String) (lang : CodeLanguage) (scriptRes : ExecResult)
    (pyEnv : PyEnv) : List ConsoleOutput :=
  if lang = CodeLanguage.javascript || lang = CodeLanguage.typescript then
    onClickScriptTrace runId lang scriptRes
  else
    onClickPythonTrace runId pyEnv

/-! ### Helper lemmas -/

lemma dropWhile_append_all {p : Char → Bool} {l r : List Char}
    (h : ∀ c ∈ l, p c = true) :
    List.dropWhile p (l ++ r) = List.dropWhile p r := by
  induction l with
  | nil => rfl
  | cons c cs ih =>
      rw [List.cons_append, List.dropWhile_cons,
        if_pos (h c (List.mem_cons_self c cs))]
      exact ih fun x hx => h x (List.mem_cons_of_mem c hx)

lemma dropWhile_cons_false {p : Char → Bool} {c : Char} {r : List Char}
    (h : p c = false) :
    List.dropWhile p (c :: r) = c :: r := by
  rw [List.dropWhile_cons, if_neg (by simp [h])]

lemma takeWhile_append_all {p : Char → Bool} {l r : List Char}
    (h : ∀ c ∈ l, p c = true) :
    List.takeWhile p (l ++ r) = l ++ List.takeWhile p r := by
  induction l with
  | nil => rfl
  | cons c cs ih =>
      rw [List.cons_append, List.takeWhile_cons,
        if_pos (h c (List.mem_cons_self c cs)), ih fun x hx => h x (List.mem_cons_of_mem c hx),
        List.cons_append]

lemma takeWhile_cons_false {p : Char → Bool} {c : Char} {r : List Char}
    (h : p c = false) :
    List.takeWhile p (c :: r) = [] := by
  rw [List.takeWhile_cons, if_neg (by simp [h])]

lemma space_not_word {c : Char} (h : isJsSpace c = true) : isWordChar c = false := by
  simp only [isJsSpace, Bool.or_eq_true, decide_eq_true_eq] at h
  rcases h with ((((h | h) | h) | h) | h) | h <;> subst h <;> decide

lemma word_ne_nl {c : Char} (h : isWordChar c = true) : c ≠ '\n' := by
  intro e
  subst e
  exact absurd h (by decide)

lemma leadsWith_append (l r : List Char) : leadsWith l (l ++ r) = true := by
  induction l with
  | nil => rfl
  | cons c cs ih => simp [leadsWith, ih]

lemma contains_of_mem {l : List Char} {c : Char} (h : c ∈ l) :
    l.contains c = true := by
  simp [List.contains, List.elem_eq_mem, h]

lemma splitNl_no_nl {l : List Char} (h : ∀ c ∈ l, c ≠ '\n') : splitNl l = [l] := by
  induction l with
  | nil => rfl
  | cons c cs ih =>
      unfold splitNl
      rw [if_neg (h c (List.mem_cons_self c cs)),
        ih fun x hx => h x (List.mem_cons_of_mem c hx)]

lemma splitNl_cons (c : Char) (cs : List Char) :
    splitNl (c :: cs) =
      if c = '\n' then [] :: splitNl cs
      else
        match splitNl cs with
        | [] => [[c]]
        | l :: ls => (c :: l) :: ls := rfl

lemma splitNl_append_nl {l r : List Char} (h : ∀ c ∈ l, c ≠ '\n') :
    splitNl (l ++ '\n' :: r) = l :: splitNl r := by
  induction l with
  | nil => simp [splitNl]
  | cons c cs ih =>
      rw [List.cons_append, splitNl_cons, if_neg (h c (List.mem_cons_self c cs)),
        ih fun x hx => h x (List.mem_cons_of_mem c hx)]

lemma splitNl_joinNl : ∀ {ps : List (List Char)}, ps ≠ [] →
    (∀ l ∈ ps, ∀ c ∈ l, c ≠ '\n') → splitNl (joinNl ps) = ps
  | [], h, _ => absurd rfl h
  | [p], _, hp => by
      rw [joinNl, splitNl_no_nl (hp p (List.mem_cons_self p []))]
  | p :: p2 :: ps, _, hp => by
      rw [joinNl, splitNl_append_nl (hp p (List.mem_cons_self p (p2 :: ps))),
        splitNl_joinNl (List.cons_ne_nil p2 ps)
          fun l hl => hp l (List.mem_cons_of_mem p hl)]

lemma dropLast_append_single {α : Type} (l : List α) (a : α) :
    (l ++ [a]).dropLast = l := by
  simp

lemma isJsSpace_backtick : isJsSpace backtick = false := by decide

lemma fenceMatch_shape (pre tag post rest : List Char)
    (hpre : ∀ c ∈ pre, isJsSpace c = true)
    (htag : ∀ c ∈ tag, isWordChar c = true)
    (hpost : ∀ c ∈ post, isJsSpace c = true) :
    fenceMatch (pre ++ [backtick, backtick, backtick] ++ tag ++ post ++ '\n' :: rest)
      = some tag := by
  have hdrop : List.dropWhile isJsSpace
      (pre ++ ([backtick, backtick, backtick] ++ (tag ++ (post ++ '\n' :: rest))))
      = backtick :: backtick :: backtick :: (tag ++ (post ++ '\n' :: rest)) := by
    rw [dropWhile_append_all hpre]
    exact dropWhile_cons_false isJsSpace_backtick
  have htake : List.takeWhile isWordChar (tag ++ (post ++ '\n' :: rest)) = tag := by
    rw [takeWhile_append_all htag]
    cases post with
    | nil =>
        rw [List.nil_append,
          takeWhile_cons_false (show isWordChar '\n' = false by decide), List.append_nil]
    | cons c cs =>
        rw [List.cons_append,
          takeWhile_cons_false (space_not_word (hpost c (List.mem_cons_self c cs))),
          List.append_nil]
  have hdrop2 : List.dropWhile isWordChar (tag ++ (post ++ '\n' :: rest))
      = post ++ '\n' :: rest := by
    rw [dropWhile_append_all htag]
    cases post with
    | nil => exact dropWhile_cons_false (by decide)
    | cons c cs =>
        rw [List.cons_append]
        exact dropWhile_cons_false (space_not_word (hpost c (List.mem_cons_self c cs)))
  have hnl : (List.takeWhile isJsSpace (post ++ '\n' :: rest)).contains '\n' = true := by
    rw [takeWhile_append_all hpost, List.takeWhile_cons, if_pos (by decide)]
    exact contains_of_mem (List.mem_append_right post (List.mem_cons_self _ _))
  simp only [fenceMatch, List.append_assoc, List.cons_append, List.nil_append] at *
  rw [hdrop]
  rw [show leadsWith [backtick, backtick, backtick]
      (backtick :: backtick :: backtick :: (tag ++ (post ++ '\n' :: rest))) = true from
    leadsWith_append [backtick, backtick, backtick] _]
  simp only [if_true, List.drop_succ_cons, List.drop_zero]
  rw [htake, hdrop2, hnl]
  simp

lemma parse_shape (pre tag post lastLine : List Char) (body : List (List Char))
    (hpre : ∀ c ∈ pre, isJsSpace c = true ∧ c ≠ '\n')
    (htag : ∀ c ∈ tag, isWordChar c = true)
    (hpost : ∀ c ∈ post, isJsSpace c = true ∧ c ≠ '\n')
    (hbody : ∀ l ∈ body, ∀ c ∈ l, c ≠ '\n')
    (hlast : ∀ c ∈ lastLine, c ≠ '\n') :
    parseCodeBlockMarkers
        ⟨pre ++ [backtick, backtick, backtick] ++ tag ++ post ++ '\n' :: joinNl (body ++ [lastLine])⟩
      = { cleanedCode := ⟨joinNl body⟩
          language :=
            match canonicalTag ⟨trimChars (tag.map Char.toLower)⟩ with
            | some l => l
            | none => detectLanguageFromContent ⟨joinNl body⟩ } := by
  have hfence := fenceMatch_shape pre tag post (joinNl (body ++ [lastLine]))
    (fun c hc => (hpre c hc).1) htag (fun c hc => (hpost c hc).1)
  have hline : ∀ c ∈ pre ++ [backtick, backtick, backtick] ++ tag ++ post, c ≠ '\n' := by
    intro c hc
    simp only [List.append_assoc, List.mem_append, List.mem_cons,
      List.not_mem_nil, or_false] at hc
    rcases hc with hc | hc | hc | hc
    · exact (hpre c hc).2
    · rcases hc with hc | hc | hc <;> subst hc <;> decide
    · exact word_ne_nl (htag c hc)
    · exact (hpost c hc).2
  simp only [parseCodeBlockMarkers]
  rw [hfence]
  rw [show (pre ++ [backtick, backtick, backtick] ++ tag ++ post ++ '\n' :: joinNl (body ++ [lastLine]))
      = ((pre ++ [backtick, backtick, backtick] ++ tag ++ post) ++ '\n' :: joinNl (body ++ [lastLine])) by
    simp [List.append_assoc]]
  rw [splitNl_append_nl hline,
    splitNl_joinNl (by simp) (by
      intro l hl
      rcases List.mem_append.mp hl with h1 | h1
      · exact hbody l h1
      · rcases List.mem_cons.mp h1 with h2 | h2
        · subst h2; exact hlast
        · cases h2)]
  simp only [List.drop_succ_cons, List.drop_zero, dropLast_append_single]

/-! ### Claim C5 -/

/-- C5: for every input text that starts with a fence line carrying a
recognized tag (python|py|javascript|js|typescript|ts, case-insensitive —
here: any word-character tag whose lowercased, trimmed form the source's
if/else-if chain recognizes), `parseCodeBlockMarkers` returns `cleanedCode`
equal to exactly the lines strictly between the first and last lines, and
`language` equal to the canonicalized tag. -/
theorem c5_fence_recognized_tag
    (pre tag post lastLine : List Char) (body : List (List Char)) (lang : CodeLanguage)
    (hpre : ∀ c ∈ pre, isJsSpace c = true ∧ c ≠ '\n')
    (htag : ∀ c ∈ tag, isWordChar c = true)
    (hpost : ∀ c ∈ post, isJsSpace c = true ∧ c ≠ '\n')
    (hbody : ∀ l ∈ body, ∀ c ∈ l, c ≠ '\n')
    (hlast : ∀ c ∈ lastLine, c ≠ '\n')
    (hcanon : canonicalTag ⟨trimChars (tag.map Char.toLower)⟩ = some lang) :
    parseCodeBlockMarkers
        ⟨pre ++ [backtick, backtick, backtick] ++ tag ++ post ++ '\n' :: joinNl (body ++ [lastLine])⟩
      = { cleanedCode := ⟨joinNl body⟩, language := lang } := by
  rw [parse_shape pre tag post lastLine body hpre htag hpost hbody hlast, hcanon]

/-- Witness for C5: the input `"```PY\nprint(1)\n```"` cleans to `"print(1)"`
and classifies as python. -/
theorem c5_fence_recognized_tag_witness :
    parseCodeBlockMarkers
        ⟨[] ++ [backtick, backtick, backtick] ++ ['P', 'Y'] ++ [] ++
          '\n' :: joinNl ([['p', 'r', 'i', 'n', 't', '(', '1', ')']] ++ [[backtick, backtick, backtick]])⟩
      = { cleanedCode := ⟨joinNl [['p', 'r', 'i', 'n', 't', '(', '1', ')']]⟩
          language := CodeLanguage.python } :=
  c5_fence_recognized_tag [] ['P', 'Y'] [] [backtick, backtick, backtick]
    [['p', 'r', 'i', 'n', 't', '(', '1', ')']] CodeLanguage.python
    (by decide) (by decide) (by decide) (by decide) (by decide) (by decide)

/-! ### Claim C10 -/

/-- C10: for every input whose first line matches an opening fence marker,
`parseCodeBlockMarkers` strips both the first and the last line even when no
closing fence line is present (here: the last line is explicitly not a
closing fence), so the final line of code is silently dropped. -/
theorem c10_fence_without_close_drops_final_line
    (pre tag post lastLine : List Char) (body : List (List Char))
    (hpre : ∀ c ∈ pre, isJsSpace c = true ∧ c ≠ '\n')
    (htag : ∀ c ∈ tag, isWordChar c = true)
    (hpost : ∀ c ∈ post, isJsSpace c = true ∧ c ≠ '\n')
    (hbody : ∀ l ∈ body, ∀ c ∈ l, c ≠ '\n')
    (hlast : ∀ c ∈ lastLine, c ≠ '\n')
    (_hnoclose : lastLine ≠ [backtick, backtick, backtick]) :
    (parseCodeBlockMarkers
        ⟨pre ++ [backtick, backtick, backtick] ++ tag ++ post ++ '\n' :: joinNl (body ++ [lastLine])⟩).cleanedCode
      = ⟨joinNl body⟩ := by
  rw [parse_shape pre tag post lastLine body hpre htag hpost hbody hlast]

/-- Witness for C10: the unterminated input `"```js\na\nb"` cleans to `"a"` —
the final code line `"b"` is dropped although no closing fence exists. -/
theorem c10_fence_without_close_drops_final_line_witness :
    (parseCodeBlockMarkers
        ⟨[] ++ [backtick, backtick, backtick] ++ ['j', 's'] ++ [] ++
          '\n' :: joinNl ([['a']] ++ [['b']])⟩).cleanedCode
      = ⟨joinNl [['a']]⟩ :=
  c10_fence_without_close_drops_final_line [] ['j', 's'] [] ['b'] [['a']]
    (by decide) (by decide) (by decide) (by decide) (by decide) (by decide)

/-! ### Claim C6 -/

/-- C6: for every unfenced input (and for a fenced input with an unrecognized
tag, applied to the stripped body), classification applies the ordered
content rules where the first match wins: the python substrings
(`def `, `import `, `print(`, the main-guard idiom) give python; otherwise
the typescript markers (`: string`, `: number`, `: boolean`, `interface `,
`type `, or `<` and `>` combined with `extends`) give typescript; otherwise
javascript.  The three example inputs classify as python, typescript and
javascript respectively. -/
theorem c6_content_heuristics :
    (∀ content : String, fenceMatch content.data = none →
      (pythonTrigger content = true →
        (parseCodeBlockMarkers content).language = CodeLanguage.python) ∧
      (pythonTrigger content = false → typescriptTrigger content = true →
        (parseCodeBlockMarkers content).language = CodeLanguage.typescript) ∧
      (pythonTrigger content = false → typescriptTrigger content = false →
        (parseCodeBlockMarkers content).language = CodeLanguage.javascript)) ∧
    (∀ content : String, ∀ t, fenceMatch content.data = some t →
      canonicalTag ⟨trimChars (t.map Char.toLower)⟩ = none →
      (pythonTrigger (parseCodeBlockMarkers content).cleanedCode = true →
        (parseCodeBlockMarkers content).language = CodeLanguage.python) ∧
      (pythonTrigger (parseCodeBlockMarkers content).cleanedCode = false →
        typescriptTrigger (parseCodeBlockMarkers content).cleanedCode = true →
        (parseCodeBlockMarkers content).language = CodeLanguage.typescript) ∧
      (pythonTrigger (parseCodeBlockMarkers content).cleanedCode = false →
        typescriptTrigger (parseCodeBlockMarkers content).cleanedCode = false →
        (parseCodeBlockMarkers content).language = CodeLanguage.javascript)) ∧
    (parseCodeBlockMarkers "def foo():\n    print(1)").language = CodeLanguage.python ∧
    (parseCodeBlockMarkers "interface Foo \x7b x: number \x7d").language = CodeLanguage.typescript ∧
    (parseCodeBlockMarkers "console.log(1)").language = CodeLanguage.javascript := by
  refine ⟨?_, ?_, by decide, by decide, by decide⟩
  · intro content hf
    simp only [parseCodeBlockMarkers, hf]
    refine ⟨fun h1 => ?_, fun h1 h2 => ?_, fun h1 h2 => ?_⟩
    · simp [detectLanguageFromContent, h1]
    · simp [detectLanguageFromContent, h1, h2]
    · simp [detectLanguageFromContent, h1, h2]
  · intro content t hf hc
    simp only [parseCodeBlockMarkers, hf, hc, List.drop_one]
    refine ⟨fun h1 => ?_, fun h1 h2 => ?_, fun h1 h2 => ?_⟩
    · simp only [parseCodeBlockMarkers, hf, List.drop_one] at h1
      simp [detectLanguageFromContent, h1]
    · simp only [parseCodeBlockMarkers, hf, List.drop_one] at h1 h2
      simp [detectLanguageFromContent, h1, h2]
    · simp only [parseCodeBlockMarkers, hf, List.drop_one] at h1 h2
      simp [detectLanguageFromContent, h1, h2]

/-- Witness for C6: the unfenced input `"x = 1"` triggers neither rule set
and classifies as javascript. -/
theorem c6_content_heuristics_witness :
    (parseCodeBlockMarkers "x = 1").language = CodeLanguage.javascript :=
  (c6_content_heuristics.1 "x = 1" (by decide)).2.2 (by decide) (by decide)

/-! ### Run-lifecycle helper lemmas -/

lemma getLast_append_single {α : Type} (l : List α) (a : α) :
    (l ++ [a]).getLast? = some a := by
  simp

lemma getLast_cons_append_single {α : Type} (x : α) (l : List α) (a : α) :
    (x :: (l ++ [a])).getLast? = some a := by
  rw [← List.cons_append]
  exact getLast_append_single _ _

lemma getLast_script (rid : String) (lang : CodeLanguage) (res : ExecResult) :
    (onClickScriptTrace rid lang res).getLast? = some (scriptFinalRecord rid res) := rfl

lemma jsOr_empty_default (s : String) : jsOr s "" = s := by
  by_cases h : s = "" <;> simp [jsOr, h]

lemma jsOr_jsOr (s d1 d2 : String) (h : d1 ≠ "") : jsOr (jsOr s d1) d2 = jsOr s d1 := by
  by_cases hs : s = "" <;> simp [jsOr, hs, h]

/-! ### Claim C1 -/

/-- C1 (amended): for a JavaScript or TypeScript run in the script backend
that reaches its node process's exit code, exit 0 yields a `completed` run
record whose single text event is the collected stdout (or the synthesized
no-output text when stdout is empty); a nonzero exit yields a `failed`
record.  The captured stdout is retained in the backend result's `output`
field together with the generic `'Execution failed'` error marker, but the
run record written by the Run action holds only the single text
`'Error: Execution failed'` — the captured stdout is not part of the
surfaced record. -/
theorem c1_script_exit_mapping (rid : String) (ts exitCode : Nat) (chunks : List String)
    (cenv : TsCompileEnv) (hread : cenv.jsFileReadable = true)
    (hnothrow : cenv.thrownInCompile = none) :
    (exitCode = 0 →
      executeJsCode { timestamp := ts, thrown := none, exitCode := exitCode, chunks := chunks }
        = { output := jsOr (String.join chunks) "Code executed successfully (no output)"
            error := none } ∧
      (onClickScriptTrace rid CodeLanguage.javascript
          (executeJsCode { timestamp := ts, thrown := none, exitCode := exitCode, chunks := chunks })).getLast?
        = some { id := rid
                 contents := [{ ctype := "text"
                                value := jsOr (String.join chunks) "Code executed successfully (no output)" }]
                 status := "completed" } ∧
      executeTypeScript { timestamp := ts, compileEnv := cenv, runThrown := none
                          exitCode := exitCode, chunks := chunks }
        = { output := jsOr (String.join chunks) "Code executed successfully (no output)"
            error := none }) ∧
    (exitCode ≠ 0 →
      executeJsCode { timestamp := ts, thrown := none, exitCode := exitCode, chunks := chunks }
        = { output := String.join chunks, error := some "Execution failed" } ∧
      (onClickScriptTrace rid CodeLanguage.javascript
          (executeJsCode { timestamp := ts, thrown := none, exitCode := exitCode, chunks := chunks })).getLast?
        = some { id := rid
                 contents := [{ ctype := "text", value := "Error: Execution failed" }]
                 status := "failed" } ∧
      executeTypeScript { timestamp := ts, compileEnv := cenv, runThrown := none
                          exitCode := exitCode, chunks := chunks }
        = { output := String.join chunks, error := some "Execution failed" }) := by
  constructor
  · intro h0
    subst h0
    have hjs : executeJsCode { timestamp := ts, thrown := none, exitCode := 0, chunks := chunks }
        = { output := jsOr (String.join chunks) "Code executed successfully (no output)"
            error := none } := by
      simp [executeJsCode]
    refine ⟨hjs, ?_, ?_⟩
    · rw [getLast_script, hjs]
      simp [scriptFinalRecord, jsTruthy]
      exact jsOr_jsOr (String.join chunks) "Code executed successfully (no output)"
        "Code executed successfully with no output" (by decide)
    · simp [executeTypeScript, compileTsWithTsc, hnothrow, hread]
  · intro hne
    have hjs : executeJsCode { timestamp := ts, thrown := none, exitCode := exitCode, chunks := chunks }
        = { output := String.join chunks, error := some "Execution failed" } := by
      simp [executeJsCode, hne, jsOr_empty_default]
    refine ⟨hjs, ?_, ?_⟩
    · rw [getLast_script, hjs]
      simp [scriptFinalRecord, jsTruthy]
    · simp [executeTypeScript, compileTsWithTsc, hnothrow, hread, hne, jsOr_empty_default]

/-- Witness for C1: a JavaScript run with exit code 0 and stdout `"hi"`
surfaces a `completed` record carrying `"hi"`. -/
theorem c1_script_exit_mapping_witness :
    (onClickScriptTrace "r" CodeLanguage.javascript
        (executeJsCode { timestamp := 0, thrown := none, exitCode := 0, chunks := ["hi"] })).getLast?
      = some { id := "r", contents := [{ ctype := "text", value := "hi" }], status := "completed" } := by
  have h := (c1_script_exit_mapping "r" 0 0 ["hi"]
    { thrownInCompile := none, tscExit := 0, diagChunks := [], jsFileReadable := true }
    rfl rfl).1 rfl
  exact h.2.1

/-- C1 counterexample: on a nonzero exit with captured stdout `"partial"`,
the surfaced run record's only content is the generic
`'Error: Execution failed'` text — the captured stdout is not retained in
the record, contradicting the claim as stated. -/
theorem c1_failed_record_drops_stdout :
    (onClickScriptTrace "r1" CodeLanguage.javascript
        (executeJsCode { timestamp := 0, thrown := none, exitCode := 1, chunks := ["partial"] })).getLast?
      = some { id := "r1", contents := [{ ctype := "text", value := "Error: Execution failed" }]
               status := "failed" }
    ∧ strIncludes "Error: Execution failed" "partial" = false := by
  constructor
  · rfl
  · decide

/-! ### Claim C2 -/

/-- C2 (amended): any exception during Python installation or execution
terminates the run as `failed` with exactly one text event containing the
exception message; the output events captured before the exception are NOT
retained in the surfaced record — the catch block writes only
`[{ type: 'text', value: error.message }]`. -/
theorem c2_python_exception_record (rid emsg : String) (msgs batches : List String) :
    (onClickPythonTrace rid { loadMessages := msgs, stdoutBatches := batches, exnMessage := some emsg }).getLast?
      = some { id := rid, contents := [{ ctype := "text", value := emsg }], status := "failed" } := by
  simp [onClickPythonTrace, getLast_cons_append_single]

/-- C2 counterexample: a Python run that captured the output `"captured"`
and then raised `"boom"` surfaces a failed record containing only the
exception text; the captured event is not in the record, contradicting the
claim as stated. -/
theorem c2_exception_drops_captured :
    (onClickPythonTrace "r2" { loadMessages := [], stdoutBatches := ["captured"], exnMessage := some "boom" }).getLast?
      = some { id := "r2", contents := [{ ctype := "text", value := "boom" }], status := "failed" }
    ∧ ({ ctype := "text", value := "captured" } : ConsoleOutputContent) ∉
        [({ ctype := "text", value := "boom" } : ConsoleOutputContent)] := by
  constructor
  · rfl
  · decide

/-! ### Claim C7 -/

/-- C7 (amended): a Python run that finishes without an exception surfaces a
`completed` record whose contents are exactly the classified captured
batches; with zero captured output the contents are empty — no "no output"
text event is synthesized on the Python path (that synthesis exists only in
the script backend). -/
theorem c7_python_empty_success_record (rid : String) (msgs : List String) :
    (onClickPythonTrace rid { loadMessages := msgs, stdoutBatches := [], exnMessage := none }).getLast?
      = some { id := rid, contents := [], status := "completed" } := by
  simp [onClickPythonTrace, getLast_cons_append_single]

/-- C7 counterexample: a Python run with no captured output completes with
zero content events, not with the single synthesized text event the claim
states. -/
theorem c7_no_synthesized_event :
    ((onClickPythonTrace "r7" { loadMessages := [], stdoutBatches := [], exnMessage := none }).getLast?).map
        (fun r => (r.status, r.contents.length))
      = some ("completed", 0) := by
  rfl

/-! ### Claim C3 -/

/-- C3 (amended): for a TypeScript run whose compiler process exits nonzero,
if the expected compiled JavaScript file can be read the run continues to
execution exactly as if compilation had succeeded; if the compiled file is
absent the run fails — but with the fixed generic message
`'TypeScript compilation failed - could not generate JavaScript file'`
rather than the compiler's diagnostic text (the captured diagnostics are
only logged, never surfaced). -/
theorem c3_ts_compile_recovery (ts : Nat) (cenv : TsCompileEnv) (runThrown : Option String)
    (exitCode : Nat) (chunks : List String) :
    (cenv.thrownInCompile = none → cenv.jsFileReadable = true →
      executeTypeScript
          { timestamp := ts, compileEnv := cenv, runThrown := runThrown,
            exitCode := exitCode, chunks := chunks }
        = executeTypeScript
            { timestamp := ts,
              compileEnv :=
                { thrownInCompile := none, tscExit := 0,
                  diagChunks := cenv.diagChunks, jsFileReadable := true },
              runThrown := runThrown, exitCode := exitCode, chunks := chunks })
    ∧ (cenv.thrownInCompile = none → cenv.jsFileReadable = false →
      executeTypeScript
          { timestamp := ts, compileEnv := cenv, runThrown := runThrown,
            exitCode := exitCode, chunks := chunks }
        = { output := "",
            error := some "TypeScript compilation failed - could not generate JavaScript file" }) := by
  constructor
  · intro h1 h2
    simp [executeTypeScript, compileTsWithTsc, h1, h2]
  · intro h1 h2
    simp [executeTypeScript, compileTsWithTsc, h1, h2]

/-- Witness for C3: with compiler exit 2 but a readable compiled file, the
run behaves exactly as a successful compilation would. -/
theorem c3_ts_compile_recovery_witness :
    executeTypeScript
        { timestamp := 1,
          compileEnv :=
            { thrownInCompile := none, tscExit := 2,
              diagChunks := ["error TS2304"], jsFileReadable := true },
          runThrown := none, exitCode := 0, chunks := ["out"] }
      = executeTypeScript
          { timestamp := 1,
            compileEnv :=
              { thrownInCompile := none, tscExit := 0,
                diagChunks := ["error TS2304"], jsFileReadable := true },
            runThrown := none, exitCode := 0, chunks := ["out"] } :=
  (c3_ts_compile_recovery 1
    { thrownInCompile := none, tscExit := 2, diagChunks := ["error TS2304"], jsFileReadable := true }
    none 0 ["out"]).1 rfl rfl

/-- C3 counterexample: with compiler exit 1, diagnostics
`"error TS2304: Cannot find name"` and no compiled file, the run fails with
the fixed generic message, which does not contain the diagnostic text —
contradicting the claim that the diagnostic text is the failure message. -/
theorem c3_failure_message_not_diagnostics :
    executeTypeScript
        { timestamp := 3,
          compileEnv :=
            { thrownInCompile := none, tscExit := 1,
              diagChunks := ["error TS2304: Cannot find name"], jsFileReadable := false },
          runThrown := none, exitCode := 0, chunks := [] }
      = { output := "",
          error := some "TypeScript compilation failed - could not generate JavaScript file" }
    ∧ strIncludes "TypeScript compilation failed - could not generate JavaScript file" "TS2304" = false := by
  constructor
  · rfl
  · decide

/-! ### Claim C4 -/

/-- C4 (amended): every tracker update a run writes has status among the
literals `in_progress`, `loading_packages`, `completed`, `failed` (the
initial state is `'in_progress'`, not the `'queued'` of the claim); the
first update appends the run with state `in_progress`; the trace ends in
exactly one terminal (`completed`/`failed`) update, and no update follows a
terminal one. -/
theorem c4_run_status_lifecycle (rid : String) (lang : CodeLanguage) (res : ExecResult)
    (penv : PyEnv) :
    (onClickTrace rid lang res penv).head?
      = some { id := rid, contents := [], status := "in_progress" }
    ∧ (∀ u ∈ onClickTrace rid lang res penv,
        u.status = "in_progress" ∨ u.status = "loading_packages" ∨
        u.status = "completed" ∨ u.status = "failed")
    ∧ ∃ first final, onClickTrace rid lang res penv = first ++ [final]
        ∧ (final.status = "completed" ∨ final.status = "failed")
        ∧ ∀ u ∈ first, u.status ≠ "completed" ∧ u.status ≠ "failed" := by
  have hscript : ∀ lg, (onClickScriptTrace rid lg res).head?
        = some { id := rid, contents := [], status := "in_progress" }
      ∧ (∀ u ∈ onClickScriptTrace rid lg res,
          u.status = "in_progress" ∨ u.status = "loading_packages" ∨
          u.status = "completed" ∨ u.status = "failed")
      ∧ ∃ first final, onClickScriptTrace rid lg res = first ++ [final]
          ∧ (final.status = "completed" ∨ final.status = "failed")
          ∧ ∀ u ∈ first, u.status ≠ "completed" ∧ u.status ≠ "failed" := by
    intro lg
    refine ⟨rfl, ?_, ?_⟩
    · intro u hu
      simp only [onClickScriptTrace, List.mem_cons, List.not_mem_nil, or_false] at hu
      rcases hu with h | h | h | h
      · subst h; left; rfl
      · subst h; right; left; rfl
      · subst h; right; left; rfl
      · subst h
        simp only [scriptFinalRecord]
        cases jsTruthy res.error <;> simp
    · refine ⟨[ { id := rid, contents := [], status := "in_progress" },
          { id := rid
            contents := [{ ctype := "text", value := "Running JavaScript in WebContainer..." }]
            status := "loading_packages" },
          { id := rid
            contents := [{ ctype := "text"
                           value := "Running " ++
                             (if lg = CodeLanguage.typescript then "TypeScript" else "JavaScript") ++
                             " code..." }]
            status := "loading_packages" } ],
        scriptFinalRecord rid res, rfl, ?_, ?_⟩
      · simp only [scriptFinalRecord]
        cases jsTruthy res.error <;> simp
      · intro u hu
        simp only [List.mem_cons, List.not_mem_nil, or_false] at hu
        rcases hu with h | h | h <;> subst h <;> exact ⟨by simp, by simp⟩
  have hpython : (onClickPythonTrace rid penv).head?
        = some { id := rid, contents := [], status := "in_progress" }
      ∧ (∀ u ∈ onClickPythonTrace rid penv,
          u.status = "in_progress" ∨ u.status = "loading_packages" ∨
          u.status = "completed" ∨ u.status = "failed")
      ∧ ∃ first final, onClickPythonTrace rid penv = first ++ [final]
          ∧ (final.status = "completed" ∨ final.status = "failed")
          ∧ ∀ u ∈ first, u.status ≠ "completed" ∧ u.status ≠ "failed" := by
    obtain ⟨msgs, batches, exn⟩ := penv
    refine ⟨rfl, ?_, ?_⟩
    · intro u hu
      rcases List.mem_cons.mp hu with h | h1
      · subst h; left; rfl
      · rcases List.mem_append.mp h1 with h2 | h2
        · rcases List.mem_map.mp h2 with ⟨m, _, h⟩
          subst h; right; left; rfl
        · rcases List.mem_cons.mp h2 with h | h
          · subst h
            cases exn <;> simp
          · cases h
    · refine ⟨{ id := rid, contents := [], status := "in_progress" } ::
          msgs.map (fun m =>
            { id := rid, contents := [{ ctype := "text", value := m }]
              status := "loading_packages" }),
        (match exn with
          | some msg => { id := rid, contents := [{ ctype := "text", value := msg }]
                          status := "failed" }
          | none => { id := rid, contents := batches.map classifyBatch
                      status := "completed" }),
        by simp [onClickPythonTrace], ?_, ?_⟩
      · cases exn <;> simp
      · intro u hu
        rcases List.mem_cons.mp hu with h | h1
        · subst h; exact ⟨by simp, by simp⟩
        · rcases List.mem_map.mp h1 with ⟨m, _, h⟩
          subst h; exact ⟨by simp, by simp⟩
  cases lang with
  | python => simpa [onClickTrace] using hpython
  | javascript => simpa [onClickTrace] using hscript CodeLanguage.javascript
  | typescript => simpa [onClickTrace] using hscript CodeLanguage.typescript

/-- Witness for C4: the head of a concrete JavaScript run's trace is the
appended `in_progress` record. -/
theorem c4_run_status_lifecycle_witness :
    (onClickTrace "r" CodeLanguage.python { output := "", error := none }
        { loadMessages := ["loading numpy"], stdoutBatches := ["1"], exnMessage := none }).head?
      = some { id := "r", contents := [], status := "in_progress" } :=
  (c4_run_status_lifecycle "r" CodeLanguage.python { output := "", error := none }
    { loadMessages := ["loading numpy"], stdoutBatches := ["1"], exnMessage := none }).1

/-- C4 counterexample: the first surfaced status of a run is the literal
`'in_progress'`, which is not in the claim's status set
`{queued, loading_packages, completed, failed}`. -/
theorem c4_initial_status_not_queued :
    ((onClickTrace "r4" CodeLanguage.javascript { output := "hi", error := none }
        { loadMessages := [], stdoutBatches := [], exnMessage := none }).head?).map
        (fun u => u.status)
      = some "in_progress"
    ∧ "in_progress" ∉ (["queued", "loading_packages", "completed", "failed"] : List String) := by
  constructor
  · rfl
  · decide

/-! ### Claim C8 -/

lemma wcRunFrom_booted (p fresh : Nat) : ∀ calls : List Bool,
    (wcRunFrom (some p, fresh) calls).2 = 0
    ∧ ∀ r ∈ (wcRunFrom (some p, fresh) calls).1, r = none ∨ r = some p := by
  intro calls
  induction calls with
  | nil => exact ⟨rfl, by simp [wcRunFrom]⟩
  | cons b calls ih =>
      cases b
      · refine ⟨?_, ?_⟩
        · simpa [wcRunFrom, wcStep] using ih.1
        · intro r hr
          simp only [wcRunFrom, wcStep, Bool.false_eq_true, if_false, List.mem_cons] at hr
          rcases hr with h | h
          · exact Or.inl h
          · exact ih.2 r h
      · refine ⟨?_, ?_⟩
        · simpa [wcRunFrom, wcStep] using ih.1
        · intro r hr
          simp only [wcRunFrom, wcStep, if_true, List.mem_cons] at hr
          rcases hr with h | h
          · exact Or.inr h
          · exact ih.2 r h

/-- C8: across the process lifetime the sandbox is booted at most once: over
any interleaving of `getWebContainer` calls (browser calls `true`, SSR calls
`false`) from the initial null state, at most one boot occurs; if any
browser call is made exactly one boot occurs; and every call returns either
the SSR dummy or the one memoized boot promise created by the first browser
call — including browser calls made before that boot has resolved, since the
promise itself is stored synchronously. -/
theorem c8_singleton_boot (calls : List Bool) (fresh : Nat) :
    (wcRunFrom (none, fresh) calls).2 ≤ 1
    ∧ (calls.contains true = true → (wcRunFrom (none, fresh) calls).2 = 1)
    ∧ (∀ r ∈ (wcRunFrom (none, fresh) calls).1, r = none ∨ r = some fresh) := by
  induction calls with
  | nil =>
      refine ⟨by simp [wcRunFrom], ?_, by simp [wcRunFrom]⟩
      intro h
      simp [List.contains] at h
  | cons b calls ih =>
      cases b
      · refine ⟨?_, ?_, ?_⟩
        · simpa [wcRunFrom, wcStep] using ih.1
        · intro h
          have h2 : calls.contains true = true := by
            simpa [List.contains, List.elem] using h
          simpa [wcRunFrom, wcStep] using ih.2.1 h2
        · intro r hr
          simp only [wcRunFrom, wcStep, Bool.false_eq_true, if_false, List.mem_cons] at hr
          rcases hr with h | h
          · exact Or.inl h
          · exact ih.2.2 r h
      · have hb := wcRunFrom_booted fresh (fresh + 1)
        refine ⟨?_, ?_, ?_⟩
        · simp [wcRunFrom, wcStep, (hb calls).1]
        · intro _
          simp [wcRunFrom, wcStep, (hb calls).1]
        · intro r hr
          simp only [wcRunFrom, wcStep, if_true, List.mem_cons] at hr
          rcases hr with h | h
          · exact Or.inr h
          · exact (hb calls).2 r h

/-- Witness for C8: three browser calls with an SSR call interleaved perform
exactly one boot. -/
theorem c8_singleton_boot_witness :
    (wcRunFrom (none, 0) [true, false, true, true]).2 = 1 :=
  (c8_singleton_boot [true, false, true, true] 0).2.1 rfl

/-! ### Claim C9 -/

/-- C9 (claim refuted): the temp source file name of a script-backend run is
`code-${Date.now()}.js`, a function of the observed millisecond timestamp
only, so two distinct concurrent runs that read the same `Date.now()` value
write the same file — the names are not always distinct.  (The source's own
comment says "Create a JavaScript file with a unique name", and the spec
requires non-colliding names, so this is a defect of the code.) -/
theorem c9_temp_name_collision :
    ¬ (∀ e1 e2 : ScriptEnv, e1 ≠ e2 → jsRunFilename e1 ≠ jsRunFilename e2) := by
  intro h
  exact h { timestamp := 5, thrown := none, exitCode := 0, chunks := [] }
    { timestamp := 5, thrown := none, exitCode := 1, chunks := [] }
    (by decide) rfl
